import Mathlib

/-!
# Verification of the CycloneDX SBOM export (`lock/export/sbom.rs`)

A shallow embedding of the SBOM export module of the `uv` lock exporter,
together with theorems settling the specification claims about it.

The embedding follows the Rust source function by function:
`generate_cyclone_dx_bom`, `create_main_component`,
`create_workspace_components`, `create_workspace_member_component`,
`create_single_project_component`, `extract_workspace_relative_path`,
`create_component_from_package`, `create_purl_from_package`, and
`create_dependency_relationships`.  Machinery that lives outside the
module (the lock-file model, URL parsing, the percent-encoding crate, the
JSON text layer) is modelled from the specification and marked as such in
the corresponding doc comments.
-/

namespace Sbom

/-- The export-level error type.  The only failure the module can produce
is the source-URL error raised while building a package URL. -/
inductive LockError where
  | sourceUrlError (url : String)
deriving DecidableEq

deriving instance DecidableEq for Except

/-- The `?` operator on fallible steps: propagate the error, otherwise
continue with the value. -/
def exceptBind {α β : Type} (e : Except LockError α) (f : α → Except LockError β) :
    Except LockError β :=
  match e with
  | .error err => .error err
  | .ok a => f a

/-- Elimination of an optional value (`match o { Some(a) => f a, None => b }`). -/
def optElim {α β : Type} (o : Option α) (f : α → β) (b : β) : β :=
  match o with
  | some a => f a
  | none => b

/-- Modelled from the spec: a recorded source location (the lock-file's URL
string type is out of scope).  `raw` is the recorded text and `wellFormed`
says whether it parses into a well-formed URL. -/
structure RawUrl where
  raw : String
  wellFormed : Bool
deriving DecidableEq

/-- Modelled from the spec: conversion of a recorded source location to a
well-formed URL (`url.to_url()` in the excluded lock-file model); fails
with a `SourceUrlError` exactly when the location is not well-formed. -/
def toUrl (u : RawUrl) : Except LockError String :=
  if u.wellFormed then .ok u.raw else .error (.sourceUrlError u.raw)

/-- The source-kind variant of a package (`Source` in the lock model).
The payloads carried by `git` and `direct` beyond the URL are unused by
the export and kept as opaque strings. -/
inductive Source where
  | registry (index : String)
  | git (url : RawUrl) (gitInfo : String)
  | direct (url : RawUrl) (directInfo : String)
  | path (p : String)
  | directory (p : String)
  | editable (p : String)
  | virtual (p : String)
deriving DecidableEq

/-- A package identity: name, optional version (already rendered to its
display string), and source kind.  Compared structurally, as the Rust
`PackageId`'s derived `Eq` does. -/
structure PackageId where
  name : String
  version : Option String
  source : Source
deriving DecidableEq

/-- A recorded dependency of a package, naming another package's identity. -/
structure LockDependency where
  packageId : PackageId
deriving DecidableEq

/-- Modelled from the spec: a content hash of a package, an
(algorithm, digest-string) pair (the lock-file hash type is out of scope). -/
structure LockHash where
  algorithm : String
  digest : String
deriving DecidableEq

/-- A package record of the lock: identity, content hashes, and the ordered
list of direct dependencies. -/
structure Package where
  id : PackageId
  hashes : List LockHash
  dependencies : List LockDependency
deriving DecidableEq

/-- The lock descriptors the export reads: the workspace member name set,
the full package table, and the optional root/single-project package. -/
structure Lock where
  members : List String
  packages : List Package
  root : Option Package
deriving DecidableEq

/-- Modelled from the spec: `lock.find_by_name(name)` of the excluded
lock-file model — the package with the given name when exactly one entry
carries it; the caller's `.ok().flatten()` collapses both the ambiguous
and the absent case to `None`. -/
def findByName (lock : Lock) (name : String) : Option Package :=
  match lock.packages.filter (fun p => decide (p.id.name = name)) with
  | [p] => some p
  | _ => none

/-- The installation target handed to the export: its lock, the optional
project name, and the final segment of the install path (the composite
`install_path().file_name().and_then(to_str)` of the excluded target
model). -/
structure Target where
  lock : Lock
  projectName : Option String
  installDirName : Option String

/-- Modelled from the spec: the generating tool's version string (the
compile-time `CARGO_PKG_VERSION` constant of the excluded build
environment). -/
def cargoPkgVersion : String := "0.9.0"

/-! ## Percent encoding

Modelled from the spec: the `percent_encoding` crate with the
`NON_ALPHANUMERIC` set is outside this module.  Every byte of the UTF-8
encoding of the input that is not an ASCII alphanumeric is escaped as
`%XX` with uppercase hexadecimal digits. -/

/-- UTF-8 encoding of a single code point, as a list of byte values. -/
def utf8EncodeCharNat (c : Nat) : List Nat :=
  if c < 0x80 then [c]
  else if c < 0x800 then
    [0xC0 ||| (c >>> 6), 0x80 ||| (c &&& 0x3F)]
  else if c < 0x10000 then
    [0xE0 ||| (c >>> 12), 0x80 ||| ((c >>> 6) &&& 0x3F), 0x80 ||| (c &&& 0x3F)]
  else
    [0xF0 ||| (c >>> 18), 0x80 ||| ((c >>> 12) &&& 0x3F),
     0x80 ||| ((c >>> 6) &&& 0x3F), 0x80 ||| (c &&& 0x3F)]

/-- The UTF-8 bytes of a string. -/
def utf8Bytes (s : String) : List Nat :=
  s.data.flatMap (fun c => utf8EncodeCharNat c.toNat)

/-- Uppercase hexadecimal digit for a value below 16. -/
def hexDigit (n : Nat) : Char :=
  if n < 10 then Char.ofNat (48 + n) else Char.ofNat (55 + n)

/-- Whether a byte is an ASCII alphanumeric, i.e. left unescaped by the
`NON_ALPHANUMERIC` set. -/
def isUnescapedByte (b : Nat) : Bool :=
  (48 ≤ b && b ≤ 57) || (65 ≤ b && b ≤ 90) || (97 ≤ b && b ≤ 122)

/-- Render one byte of the input: kept verbatim when ASCII alphanumeric,
escaped as `%XX` otherwise. -/
def encodeByte (b : Nat) : List Char :=
  if isUnescapedByte b then [Char.ofNat b]
  else ['%', hexDigit (b / 16), hexDigit (b % 16)]

/-- Modelled from the spec: `percent_encoding::utf8_percent_encode` with
the `NON_ALPHANUMERIC` set — escapes every non-alphanumeric byte of the
UTF-8 encoding. -/
def percentEncode (s : String) : String :=
  ⟨(utf8Bytes s).flatMap encodeByte⟩

/-! ## CycloneDX document structures -/

/-- A CycloneDX hash entry: algorithm and digest content. -/
structure Hash where
  alg : String
  content : String
deriving DecidableEq

/-- A CycloneDX key/value property. -/
structure Property where
  name : String
  value : String
deriving DecidableEq

/-- A CycloneDX component. -/
structure Component where
  bomRef : String
  type : String
  name : String
  version : Option String
  description : Option String
  hashes : Option (List Hash)
  purl : Option String
  properties : Option (List Property)
deriving DecidableEq

/-- CycloneDX generating-tool identity. -/
structure Tool where
  vendor : Option String
  name : String
  version : Option String
deriving DecidableEq

/-- CycloneDX document metadata. -/
structure Metadata where
  timestamp : Option String
  tools : Option (List Tool)
  component : Option Component
deriving DecidableEq

/-- A CycloneDX dependency edge: source reference and its targets. -/
structure Dependency where
  ref : String
  dependsOn : List String
deriving DecidableEq

/-- The CycloneDX document. -/
structure CycloneDx where
  bomFormat : String
  specVersion : String
  serialNumber : String
  version : Nat
  metadata : Metadata
  components : Option (List Component)
  dependencies : Option (List Dependency)
deriving DecidableEq

/-! ## Builders -/

/-- The `unwrap_or_else(|| "unknown")` rendering of an optional version,
used at every reference-construction site. -/
def versionOrUnknown (v : Option String) : String :=
  match v with
  | some s => s
  | none => "unknown"

/-- The reference string `pkg:pypi/<name>@<version-or-unknown>` that the
source builds with the same `format!` at every site (component `bom_ref`s
and dependency references). -/
def pkgRef (p : Package) : String :=
  "pkg:pypi/" ++ p.id.name ++ "@" ++ versionOrUnknown p.id.version

/-- `create_main_component`: the main (root) component of the document. -/
def createMainComponent (t : Target) (bomRef : String) : Except LockError Component :=
  let name :=
    match t.projectName with
    | some n => n
    | none =>
      match t.installDirName with
      | some d => d
      | none => "workspace"
  let componentType :=
    if t.lock.members.length > 1 || t.projectName.isNone then "application"
    else "application"
  .ok { bomRef := bomRef
        type := componentType
        name := name
        version := none
        description := some "uv workspace or project"
        hashes := none
        purl := none
        properties := none }

/-- `create_purl_from_package`: the Package-URL Builder. -/
def createPurlFromPackage (package : Package) : Except LockError String :=
  let version := versionOrUnknown package.id.version
  match package.id.source with
  | .registry _ => .ok ("pkg:pypi/" ++ package.id.name ++ "@" ++ version)
  | .git url _ =>
    exceptBind (toUrl url) (fun urlStr =>
      .ok ("pkg:pypi/" ++ package.id.name ++ "@" ++ version ++ "?vcs_url=" ++
        percentEncode urlStr))
  | .direct url _ =>
    exceptBind (toUrl url) (fun urlStr =>
      .ok ("pkg:pypi/" ++ package.id.name ++ "@" ++ version ++ "?download_url=" ++
        percentEncode urlStr))
  | .path _ => .ok ("pkg:pypi/" ++ package.id.name ++ "@" ++ version)
  | .directory _ => .ok ("pkg:pypi/" ++ package.id.name ++ "@" ++ version)
  | .editable _ => .ok ("pkg:pypi/" ++ package.id.name ++ "@" ++ version)
  | .virtual _ => .ok ("pkg:pypi/" ++ package.id.name ++ "@" ++ version)

/-- `extract_workspace_relative_path`. -/
def extractWorkspaceRelativePath (package : Package) : Option String :=
  match package.id.source with
  | .path p => some ("./" ++ p)
  | .directory p => some ("./" ++ p)
  | .editable p => some ("./" ++ p)
  | _ => none

/-- `create_workspace_member_component`. -/
def createWorkspaceMemberComponent (package : Package) : Except LockError Component :=
  let bomRef := pkgRef package
  let properties :=
    [ { name := "uv:workspace_member", value := "true" : Property },
      { name := "uv:source_type", value := "workspace" : Property } ] ++
    (match extractWorkspaceRelativePath package with
     | some relativePath => [{ name := "uv:workspace_path", value := relativePath : Property }]
     | none => [])
  exceptBind (createPurlFromPackage package) (fun purl =>
    .ok { bomRef := bomRef
          type := "library"
          name := package.id.name
          version := package.id.version
          description := some ("Workspace member: " ++ package.id.name)
          hashes := none
          purl := some purl
          properties := some properties })

/-- `create_single_project_component`. -/
def createSingleProjectComponent (package : Package) : Except LockError Component :=
  let bomRef := pkgRef package
  exceptBind (createPurlFromPackage package) (fun purl =>
    .ok { bomRef := bomRef
          type := "library"
          name := package.id.name
          version := package.id.version
          description := some ("Single project: " ++ package.id.name)
          hashes := none
          purl := some purl
          properties := some
            [ { name := "uv:workspace_member", value := "false" },
              { name := "uv:source_type", value := "project" },
              { name := "uv:project_type", value := "single" } ] })

/-- The `source_type` property value derived from the source variant in
`create_component_from_package`. -/
def sourceTypeString (s : Source) : String :=
  match s with
  | .registry _ => "registry"
  | .git _ _ => "git"
  | .direct _ _ => "direct"
  | .path _ => "path"
  | .directory _ => "directory"
  | .editable _ => "editable"
  | .virtual _ => "virtual"

/-- `create_component_from_package`: an external dependency component. -/
def createComponentFromPackage (package : Package) (includeHashes : Bool) :
    Except LockError Component :=
  let bomRef := pkgRef package
  let hashes :=
    if includeHashes then
      if package.hashes.isEmpty then none
      else some (package.hashes.map (fun h => { alg := h.algorithm, content := h.digest : Hash }))
    else none
  exceptBind (createPurlFromPackage package) (fun purl =>
    .ok { bomRef := bomRef
          type := "library"
          name := package.id.name
          version := package.id.version
          description := none
          hashes := hashes
          purl := some purl
          properties := some
            [ { name := "uv:workspace_member", value := "false" },
              { name := "uv:source_type", value := sourceTypeString package.id.source } ] })

/-- The member half of `create_workspace_components`: one component per
workspace member whose package is found in the lock. -/
def memberComponentsAux (lock : Lock) : List String → Except LockError (List Component)
  | [] => .ok []
  | m :: ms =>
    optElim (findByName lock m)
      (fun p =>
        exceptBind (createWorkspaceMemberComponent p) (fun c =>
          exceptBind (memberComponentsAux lock ms) (fun rest => .ok (c :: rest))))
      (memberComponentsAux lock ms)

/-- `create_workspace_components`: workspace member components, plus the
single-project root component when there are no workspace members. -/
def createWorkspaceComponents (t : Target) : Except LockError (List Component) :=
  exceptBind (memberComponentsAux t.lock t.lock.members) (fun comps =>
    if t.lock.members.isEmpty then
      optElim t.lock.root
        (fun rootPackage =>
          exceptBind (createSingleProjectComponent rootPackage) (fun c =>
            .ok (comps ++ [c])))
        (.ok comps)
    else .ok comps)

/-! ## Dependency graph projection -/

/-- Root-edge targets contributed by workspace members (`main_deps` pushes
for `lock.members()`). -/
def memberMainDeps (lock : Lock) : List String :=
  lock.members.filterMap (fun m => (findByName lock m).map pkgRef)

/-- Root-edge target contributed by the root package when there are no
workspace members. -/
def rootMainDeps (lock : Lock) : List String :=
  if lock.members.isEmpty then
    optElim lock.root (fun rootPackage => [pkgRef rootPackage]) []
  else []

/-- Root-edge targets contributed by the filtered package list: every node
whose name is not a workspace member. -/
def externalMainDeps (lock : Lock) (nodes : List Package) : List String :=
  nodes.filterMap (fun n =>
    if decide (n.id.name ∈ lock.members) then none else some (pkgRef n))

/-- The complete target list of the root edge, in push order. -/
def mainDepsList (lock : Lock) (nodes : List Package) : List String :=
  memberMainDeps lock ++ rootMainDeps lock ++ externalMainDeps lock nodes

/-- The targets of a package's own dependency edge: its direct
dependencies that are found (by identity) in the filtered list, in the
order the package enumerates them. -/
def depTargets (nodes : List Package) (n : Package) : List String :=
  n.dependencies.filterMap (fun d =>
    (nodes.find? (fun p => decide (p.id = d.packageId))).map pkgRef)

/-- The dependency edge a single node contributes: none when its found
targets are empty, otherwise the edge from its reference. -/
def pkgEdge (nodes : List Package) (n : Package) : Option Dependency :=
  if (depTargets nodes n).isEmpty then none
  else some { ref := pkgRef n, dependsOn := depTargets nodes n }

/-- The per-package dependency edges, one per node with a non-empty target
list. -/
def perPackageEdges (nodes : List Package) : List Dependency :=
  nodes.filterMap (pkgEdge nodes)

/-- `create_dependency_relationships`: the root edge (when its target list
is non-empty) followed by the per-package edges. -/
def createDependencyRelationships (t : Target) (nodes : List Package)
    (mainBomRef : String) : Except LockError (List Dependency) :=
  .ok ((if (mainDepsList t.lock nodes).isEmpty then []
        else [{ ref := mainBomRef, dependsOn := mainDepsList t.lock nodes }]) ++
       perPackageEdges nodes)

/-- Whether the node loop of `generate_cyclone_dx_bom` skips a node: it is
skipped when there are workspace members and the node bears a member's
name. -/
def skipNode (members : List String) (n : Package) : Bool :=
  !members.isEmpty && decide (n.id.name ∈ members)

/-- The dependency-component loop of `generate_cyclone_dx_bom`: skips
member-named nodes (when members exist), builds a component for every
other node, and keeps only the first component for each `bom_ref`
(`component_refs` dedup set). -/
def depComponentsAux (members : List String) (includeHashes : Bool) :
    List Package → List String → Except LockError (List Component)
  | [], _ => .ok []
  | n :: ns, seen =>
    if skipNode members n then depComponentsAux members includeHashes ns seen
    else
      exceptBind (createComponentFromPackage n includeHashes) (fun c =>
        if decide (c.bomRef ∈ seen) then depComponentsAux members includeHashes ns seen
        else
          exceptBind (depComponentsAux members includeHashes ns (c.bomRef :: seen))
            (fun rest => .ok (c :: rest)))

/-- `generate_cyclone_dx_bom`.  The two wall-clock reads of the source are
the parameters `now` (the nanosecond value read for the serial number and
the main `bom_ref`) and `ts` (the rendered timestamp read for the
metadata). -/
def generateCycloneDxBom (t : Target) (nodes : List Package) (includeHashes : Bool)
    (now : Nat) (ts : String) : Except LockError CycloneDx :=
  let bomRef := "urn:uv-bom:" ++ toString now
  let serialNumber := "urn:uv-bom-serial:" ++ toString now
  exceptBind (createMainComponent t bomRef) (fun mainComponent =>
    exceptBind (createWorkspaceComponents t) (fun workspaceComponents =>
      exceptBind (depComponentsAux t.lock.members includeHashes nodes [])
        (fun dependencyComponents =>
          let allComponents := workspaceComponents ++ dependencyComponents
          exceptBind (createDependencyRelationships t nodes mainComponent.bomRef)
            (fun dependencies =>
              .ok { bomFormat := "CycloneDX"
                    specVersion := "1.5"
                    serialNumber := serialNumber
                    version := 1
                    metadata :=
                      { timestamp := some ts
                        tools := some [{ vendor := some "Astral", name := "uv",
                                         version := some cargoPkgVersion }]
                        component := some mainComponent }
                    components := if allComponents.isEmpty then none else some allComponents
                    dependencies :=
                      if dependencies.isEmpty then none else some dependencies }))))

/-! ## Derived notions used by the claims -/

/-- All identifiers a document's components declare: the main component's
identifier followed by the identifiers of the component list. -/
def docRefs (doc : CycloneDx) : List String :=
  (match doc.metadata.component with
   | some c => [c.bomRef]
   | none => []) ++ (doc.components.getD []).map (fun c => c.bomRef)

/-- Whether a package's source is a Git or Direct source whose recorded
location does not parse into a well-formed URL. -/
def badSource (p : Package) : Bool :=
  match p.id.source with
  | .git u _ => !u.wellFormed
  | .direct u _ => !u.wellFormed
  | _ => false

/-- The packages whose workspace/root components are built: found member
packages, plus the root package when there are no members. -/
def workspacePackages (t : Target) : List Package :=
  t.lock.members.filterMap (findByName t.lock) ++
  (if t.lock.members.isEmpty then t.lock.root.toList else [])

/-- The packages for which the export constructs a package URL: the found
workspace-member packages, the root package when there are no members,
and every node not skipped by the dependency-component loop. -/
def purlBuiltPackages (t : Target) (nodes : List Package) : List Package :=
  workspacePackages t ++ nodes.filter (fun n => !skipNode t.lock.members n)

/-- Whether the source kind carries a URL qualifier in its package URL. -/
def hasUrlQualifier (p : Package) : Bool :=
  match p.id.source with
  | .git _ _ => true
  | .direct _ _ => true
  | _ => false

/-- Re-stamp a document with new clock readings: replaces the serial
number, the metadata timestamp, the main component's reference, and every
dependency-edge source that was the old main reference. -/
def restamp (now : Nat) (ts : String) (d : CycloneDx) : CycloneDx :=
  let oldRef := (d.metadata.component.map (fun c => c.bomRef)).getD ""
  let newRef := "urn:uv-bom:" ++ toString now
  { d with
    serialNumber := "urn:uv-bom-serial:" ++ toString now
    metadata :=
      { d.metadata with
        timestamp := some ts
        component := d.metadata.component.map (fun c => { c with bomRef := newRef }) }
    dependencies := d.dependencies.map (List.map (fun dep =>
      if dep.ref = oldRef then { dep with ref := newRef } else dep)) }

/-! ## Concrete inputs used by counterexamples and witnesses -/

/-- A registry package `a 1.0` with one hash and no dependencies. -/
def pkgA : Package :=
  { id := { name := "a", version := some "1.0", source := .registry "pypi" },
    hashes := [{ algorithm := "sha256", digest := "abc" }],
    dependencies := [] }

/-- A registry package `b 2.0` depending on `a 1.0`. -/
def pkgB : Package :=
  { id := { name := "b", version := some "2.0", source := .registry "pypi" },
    hashes := [],
    dependencies := [{ packageId := pkgA.id }] }

/-- A single-project lock (no workspace members) rooted at `a`. -/
def lockSingleA : Lock := { members := [], packages := [pkgA], root := some pkgA }

/-- The single-project target for `lockSingleA`. -/
def targetSingleA : Target :=
  { lock := lockSingleA, projectName := some "a", installDirName := some "a" }

/-- A rootless, memberless lock holding `a` and `b`. -/
def lockAB : Lock := { members := [], packages := [pkgA, pkgB], root := none }

/-- The target for `lockAB`. -/
def targetAB : Target :=
  { lock := lockAB, projectName := some "proj", installDirName := some "proj" }

/-- A Git-sourced package `foo` with no version, at a well-formed URL. -/
def gitFoo : Package :=
  { id := { name := "foo", version := none,
            source := .git { raw := "https://example.com/foo.git", wellFormed := true } "rev" },
    hashes := [], dependencies := [] }

/-- The external component the export builds for `pkgA` without hashes. -/
def cExtA0 : Component :=
  { bomRef := "pkg:pypi/a@1.0"
    type := "library"
    name := "a"
    version := some "1.0"
    description := none
    hashes := none
    purl := some "pkg:pypi/a@1.0"
    properties := some
      [ { name := "uv:workspace_member", value := "false" },
        { name := "uv:source_type", value := "registry" } ] }

/-- The external component the export builds for `pkgB` without hashes. -/
def cExtB0 : Component :=
  { bomRef := "pkg:pypi/b@2.0"
    type := "library"
    name := "b"
    version := some "2.0"
    description := none
    hashes := none
    purl := some "pkg:pypi/b@2.0"
    properties := some
      [ { name := "uv:workspace_member", value := "false" },
        { name := "uv:source_type", value := "registry" } ] }

/-- The document the export assembles for `targetAB` at clock readings
`7`/`"t7"` without hashes. -/
def docAB7 : CycloneDx :=
  { bomFormat := "CycloneDX"
    specVersion := "1.5"
    serialNumber := "urn:uv-bom-serial:7"
    version := 1
    metadata :=
      { timestamp := some "t7"
        tools := some [{ vendor := some "Astral", name := "uv", version := some "0.9.0" }]
        component := some
          { bomRef := "urn:uv-bom:7"
            type := "application"
            name := "proj"
            version := none
            description := some "uv workspace or project"
            hashes := none
            purl := none
            properties := none } }
    components := some [cExtA0, cExtB0]
    dependencies := some
      [ { ref := "urn:uv-bom:7", dependsOn := ["pkg:pypi/a@1.0", "pkg:pypi/b@2.0"] },
        { ref := "pkg:pypi/b@2.0", dependsOn := ["pkg:pypi/a@1.0"] } ] }

/-- The single-project component the export builds for `pkgA`. -/
def cSingleA : Component :=
  { bomRef := "pkg:pypi/a@1.0"
    type := "library"
    name := "a"
    version := some "1.0"
    description := some "Single project: a"
    hashes := none
    purl := some "pkg:pypi/a@1.0"
    properties := some
      [ { name := "uv:workspace_member", value := "false" },
        { name := "uv:source_type", value := "project" },
        { name := "uv:project_type", value := "single" } ] }

/-- The external component the export builds for `pkgA` with hashes. -/
def cExtAH : Component :=
  { bomRef := "pkg:pypi/a@1.0"
    type := "library"
    name := "a"
    version := some "1.0"
    description := none
    hashes := some [{ alg := "sha256", content := "abc" }]
    purl := some "pkg:pypi/a@1.0"
    properties := some
      [ { name := "uv:workspace_member", value := "false" },
        { name := "uv:source_type", value := "registry" } ] }

/-- The document the export assembles for `targetSingleA` at clock
readings `0`/`"t0"` with hash inclusion. -/
def docA0 : CycloneDx :=
  { bomFormat := "CycloneDX"
    specVersion := "1.5"
    serialNumber := "urn:uv-bom-serial:0"
    version := 1
    metadata :=
      { timestamp := some "t0"
        tools := some [{ vendor := some "Astral", name := "uv", version := some "0.9.0" }]
        component := some
          { bomRef := "urn:uv-bom:0"
            type := "application"
            name := "a"
            version := none
            description := some "uv workspace or project"
            hashes := none
            purl := none
            properties := none } }
    components := some [cSingleA, cExtAH]
    dependencies := some
      [ { ref := "urn:uv-bom:0", dependsOn := ["pkg:pypi/a@1.0", "pkg:pypi/a@1.0"] } ] }

/-- Whether an export step succeeded. -/
def exceptOk {α : Type} (e : Except LockError α) : Bool :=
  match e with
  | .ok _ => true
  | .error _ => false

/-! ## The JSON document tree (used by claim C9)

Modelled from the spec: the JSON text layer (`serde_json`'s pretty
printing and parsing) is outside this module and faithfully round-trips
the document tree, so rendering is modelled as the tree the serde derive
rules produce — camelCase field names where the source declares them, the
`dependsOn` rename, and `skip_serializing_if` omission of absent optional
fields. -/

/-- Modelled from the spec: the JSON document tree.  Only the forms the
schema uses appear: strings, numbers, arrays, objects. -/
inductive Json where
  | str (s : String)
  | num (n : Nat)
  | arr (xs : List Json)
  | obj (fields : List (String × Json))

/-- Look a field up in an object. -/
def Json.getField : Json → String → Option Json
  | .obj fields, name => fields.lookup name
  | _, _ => none

/-- Whether an object carries a field. -/
def jsonHasField (j : Json) (name : String) : Bool :=
  (j.getField name).isSome

/-- Read a string value. -/
def Json.asStr : Json → Option String
  | .str s => some s
  | _ => none

/-- Read a numeric value. -/
def Json.asNat : Json → Option Nat
  | .num n => some n
  | _ => none

/-- An optional object field: present exactly when the value is
(`skip_serializing_if = "Option::is_none"`). -/
def optField (name : String) (v : Option Json) : List (String × Json) :=
  match v with
  | some j => [(name, j)]
  | none => []

/-- Parse every element of a list, failing if any element fails. -/
def parseList {α : Type} (f : Json → Option α) : List Json → Option (List α)
  | [] => some []
  | j :: js =>
    match f j with
    | some a => (parseList f js).map (fun rest => a :: rest)
    | none => none

/-- Parse an array value elementwise. -/
def parseArr {α : Type} (f : Json → Option α) : Json → Option (List α)
  | .arr xs => parseList f xs
  | _ => none

/-- Parse an optional field: an absent field parses to `none`, a present
field must parse. -/
def parseOptField {α : Type} (j : Json) (name : String) (f : Json → Option α) :
    Option (Option α) :=
  match j.getField name with
  | none => some none
  | some v => (f v).map some

/-- Serialize a hash entry. -/
def toJsonHash (h : Hash) : Json :=
  .obj [("alg", .str h.alg), ("content", .str h.content)]

/-- Parse a hash entry. -/
def fromJsonHash (j : Json) : Option Hash :=
  match (j.getField "alg").bind Json.asStr with
  | none => none
  | some alg =>
    match (j.getField "content").bind Json.asStr with
    | none => none
    | some content => some { alg := alg, content := content }

/-- Serialize a property. -/
def toJsonProperty (p : Property) : Json :=
  .obj [("name", .str p.name), ("value", .str p.value)]

/-- Parse a property. -/
def fromJsonProperty (j : Json) : Option Property :=
  match (j.getField "name").bind Json.asStr with
  | none => none
  | some name =>
    match (j.getField "value").bind Json.asStr with
    | none => none
    | some value => some { name := name, value := value }

/-- Serialize a tool identity. -/
def toJsonTool (t : Tool) : Json :=
  .obj (optField "vendor" (t.vendor.map .str) ++ [("name", .str t.name)] ++
    optField "version" (t.version.map .str))

/-- Parse a tool identity. -/
def fromJsonTool (j : Json) : Option Tool :=
  match parseOptField j "vendor" Json.asStr with
  | none => none
  | some vendor =>
    match (j.getField "name").bind Json.asStr with
    | none => none
    | some name =>
      match parseOptField j "version" Json.asStr with
      | none => none
      | some version => some { vendor := vendor, name := name, version := version }

/-- Serialize a component (camelCase names per the derive attribute). -/
def toJsonComponent (c : Component) : Json :=
  .obj ([("bomRef", .str c.bomRef), ("type", .str c.type), ("name", .str c.name)] ++
    optField "version" (c.version.map .str) ++
    optField "description" (c.description.map .str) ++
    optField "hashes" (c.hashes.map (fun hs => .arr (hs.map toJsonHash))) ++
    optField "purl" (c.purl.map .str) ++
    optField "properties" (c.properties.map (fun ps => .arr (ps.map toJsonProperty))))

/-- Parse a component. -/
def fromJsonComponent (j : Json) : Option Component :=
  match (j.getField "bomRef").bind Json.asStr with
  | none => none
  | some bomRef =>
    match (j.getField "type").bind Json.asStr with
    | none => none
    | some type =>
      match (j.getField "name").bind Json.asStr with
      | none => none
      | some name =>
        match parseOptField j "version" Json.asStr with
        | none => none
        | some version =>
          match parseOptField j "description" Json.asStr with
          | none => none
          | some description =>
            match parseOptField j "hashes" (parseArr fromJsonHash) with
            | none => none
            | some hashes =>
              match parseOptField j "purl" Json.asStr with
              | none => none
              | some purl =>
                match parseOptField j "properties" (parseArr fromJsonProperty) with
                | none => none
                | some properties =>
                  some { bomRef := bomRef, type := type, name := name,
                         version := version, description := description,
                         hashes := hashes, purl := purl, properties := properties }

/-- Serialize document metadata. -/
def toJsonMetadata (m : Metadata) : Json :=
  .obj (optField "timestamp" (m.timestamp.map .str) ++
    optField "tools" (m.tools.map (fun ts => .arr (ts.map toJsonTool))) ++
    optField "component" (m.component.map toJsonComponent))

/-- Parse document metadata. -/
def fromJsonMetadata (j : Json) : Option Metadata :=
  match parseOptField j "timestamp" Json.asStr with
  | none => none
  | some timestamp =>
    match parseOptField j "tools" (parseArr fromJsonTool) with
    | none => none
    | some tools =>
      match parseOptField j "component" fromJsonComponent with
      | none => none
      | some component =>
        some { timestamp := timestamp, tools := tools, component := component }

/-- Serialize a dependency edge (`dependsOn` rename per the attribute). -/
def toJsonDependency (d : Dependency) : Json :=
  .obj [("ref", .str d.ref), ("dependsOn", .arr (d.dependsOn.map .str))]

/-- Parse a dependency edge. -/
def fromJsonDependency (j : Json) : Option Dependency :=
  match (j.getField "ref").bind Json.asStr with
  | none => none
  | some ref =>
    match (j.getField "dependsOn").bind (parseArr Json.asStr) with
    | none => none
    | some dependsOn => some { ref := ref, dependsOn := dependsOn }

/-- Serialize the document (camelCase names per the derive attribute). -/
def toJsonCycloneDx (d : CycloneDx) : Json :=
  .obj ([("bomFormat", .str d.bomFormat), ("specVersion", .str d.specVersion),
    ("serialNumber", .str d.serialNumber), ("version", .num d.version),
    ("metadata", toJsonMetadata d.metadata)] ++
    optField "components" (d.components.map (fun cs => .arr (cs.map toJsonComponent))) ++
    optField "dependencies"
      (d.dependencies.map (fun ds => .arr (ds.map toJsonDependency))))

/-- Parse the document. -/
def fromJsonCycloneDx (j : Json) : Option CycloneDx :=
  match (j.getField "bomFormat").bind Json.asStr with
  | none => none
  | some bomFormat =>
    match (j.getField "specVersion").bind Json.asStr with
    | none => none
    | some specVersion =>
      match (j.getField "serialNumber").bind Json.asStr with
      | none => none
      | some serialNumber =>
        match (j.getField "version").bind Json.asNat with
        | none => none
        | some version =>
          match (j.getField "metadata").bind fromJsonMetadata with
          | none => none
          | some metadata =>
            match parseOptField j "components" (parseArr fromJsonComponent) with
            | none => none
            | some components =>
              match parseOptField j "dependencies" (parseArr fromJsonDependency) with
              | none => none
              | some dependencies =>
                some { bomFormat := bomFormat, specVersion := specVersion,
                       serialNumber := serialNumber, version := version,
                       metadata := metadata, components := components,
                       dependencies := dependencies }

/-! ## Reduction rules for the combinators -/

@[simp]
theorem exceptBind_ok {α β : Type} (a : α) (f : α → Except LockError β) :
    exceptBind (.ok a) f = f a := rfl

@[simp]
theorem exceptBind_error {α β : Type} (e : LockError) (f : α → Except LockError β) :
    exceptBind (.error e) f = .error e := rfl

@[simp]
theorem optElim_some {α β : Type} (a : α) (f : α → β) (b : β) :
    optElim (some a) f b = f a := rfl

@[simp]
theorem optElim_none {α β : Type} (f : α → β) (b : β) :
    optElim (none : Option α) f b = b := rfl

/-! ## General lemmas about the dependency projection -/

/-- Every per-package edge comes from a node of the filtered list, with
that node's reference as its source and that node's found-dependency
targets. -/
theorem mem_perPackageEdges {nodes l : List Package} {d : Dependency}
    (h : d ∈ l.filterMap (pkgEdge nodes)) :
    ∃ n ∈ l, (depTargets nodes n).isEmpty = false ∧
      d = { ref := pkgRef n, dependsOn := depTargets nodes n } := by
  rcases List.mem_filterMap.mp h with ⟨n, hn, hf⟩
  by_cases he : (depTargets nodes n).isEmpty
  · rw [pkgEdge, if_pos he] at hf
    cases hf
  · rw [pkgEdge, if_neg he] at hf
    have hd := Option.some.inj hf
    exact ⟨n, hn, Bool.not_eq_true _ ▸ he, hd.symm⟩

/-- A filter by source reference returns nothing when no element bears the
reference. -/
theorem filter_ref_eq_nil {l : List Dependency} {r : String}
    (h : ∀ d ∈ l, d.ref ≠ r) : l.filter (fun d => decide (d.ref = r)) = [] := by
  induction l with
  | nil => rfl
  | cons a as ih =>
    have ha := h a (List.mem_cons_self a as)
    simp only [List.filter_cons, ha, decide_False, if_false]
    exact ih (fun d hd => h d (List.mem_cons_of_mem a hd))

/-! ## Claim C1 — the root edge -/

/-- Claim C1, counterexample.  The claim says the root edge's target set has
no duplicate targets.  On a single-project lock rooted at `a 1.0` whose
filtered list also contains `a 1.0` (the normal situation: the exporter
includes the project itself), the single root edge's target list contains
the identifier `pkg:pypi/a@1.0` twice: once as the root package and once
as a node of the filtered list. -/
theorem c1_counterexample :
    createDependencyRelationships targetSingleA [pkgA] "urn:uv-bom:0" =
      .ok [{ ref := "urn:uv-bom:0", dependsOn := ["pkg:pypi/a@1.0", "pkg:pypi/a@1.0"] }] ∧
    ¬ (["pkg:pypi/a@1.0", "pkg:pypi/a@1.0"] : List String).Nodup :=
  ⟨rfl, by decide⟩

/-- Claim C1, amended claim.  For every lock and filtered package list (with
a main reference no package reference collides with), the generated edge
list contains at most one edge whose source is the main identifier; that
edge's target list is exactly the concatenation of (a) the identifier of
every workspace member found in the lock, (b) the root package's
identifier when there are no workspace members, and (c) the identifier of
every package of the filtered list whose name is not a workspace member —
in that order, possibly with duplicate targets (the original claim's
"with no duplicate targets" fails, see the counterexample); the edge is
present exactly when this concatenation is non-empty. -/
theorem c1_amended (t : Target) (nodes : List Package) (mainRef : String)
    (ds : List Dependency)
    (hm : ∀ n ∈ nodes, pkgRef n ≠ mainRef)
    (h : createDependencyRelationships t nodes mainRef = .ok ds) :
    (ds.filter (fun d => decide (d.ref = mainRef))).length ≤ 1 ∧
    (∀ d ∈ ds, d.ref = mainRef → d.dependsOn = mainDepsList t.lock nodes) ∧
    (mainDepsList t.lock nodes ≠ [] →
      ({ ref := mainRef, dependsOn := mainDepsList t.lock nodes } : Dependency) ∈ ds) ∧
    (mainDepsList t.lock nodes = [] → ∀ d ∈ ds, d.ref ≠ mainRef) := by
  have hds : ds = (if (mainDepsList t.lock nodes).isEmpty then []
      else [{ ref := mainRef, dependsOn := mainDepsList t.lock nodes }]) ++
        perPackageEdges nodes := (Except.ok.inj h).symm
  have hper : ∀ d ∈ perPackageEdges nodes, d.ref ≠ mainRef := by
    intro d hd
    rcases mem_perPackageEdges hd with ⟨n, hn, -, rfl⟩
    exact hm n hn
  subst hds
  by_cases he : (mainDepsList t.lock nodes).isEmpty
  · have hnil : mainDepsList t.lock nodes = [] := List.isEmpty_iff.mp he
    rw [if_pos he, List.nil_append]
    refine ⟨?_, ?_, ?_, ?_⟩
    · rw [filter_ref_eq_nil hper]; exact Nat.zero_le 1
    · intro d hd href; exact absurd href (hper d hd)
    · intro hne; exact absurd hnil hne
    · intro _; exact hper
  · have hne : mainDepsList t.lock nodes ≠ [] := by
      intro hnil
      exact he (by rw [hnil]; rfl)
    rw [if_neg he, List.cons_append, List.nil_append]
    refine ⟨?_, ?_, ?_, ?_⟩
    · rw [List.filter_cons]
      simp only [decide_True, if_true, filter_ref_eq_nil hper]
      exact Nat.le_refl 1
    · intro d hd href
      rcases List.mem_cons.mp hd with rfl | hd'
      · rfl
      · exact absurd href (hper d hd')
    · intro _
      exact List.mem_cons_self _ _
    · intro hnil
      exact absurd hnil hne

/-- Claim C1, witness.  The amended root-edge theorem applied to the
two-package lock `lockAB`. -/
theorem c1_witness :
    ({ ref := "urn:uv-bom:0", dependsOn := mainDepsList lockAB [pkgA, pkgB] } : Dependency) ∈
      [({ ref := "urn:uv-bom:0",
          dependsOn := ["pkg:pypi/a@1.0", "pkg:pypi/b@2.0"] } : Dependency),
       { ref := "pkg:pypi/b@2.0", dependsOn := ["pkg:pypi/a@1.0"] }] := by
  have h := c1_amended targetAB [pkgA, pkgB] "urn:uv-bom:0"
    [{ ref := "urn:uv-bom:0", dependsOn := ["pkg:pypi/a@1.0", "pkg:pypi/b@2.0"] },
     { ref := "pkg:pypi/b@2.0", dependsOn := ["pkg:pypi/a@1.0"] }]
    (by decide) rfl
  exact h.2.2.1 (by decide)

/-! ## Claim C2 — component deduplication (code bug) -/

/-- Claim C2, bug exhibit.  The claim (and the spec) say every identifier
appears at most once in the component list, the single-project root
package in particular appearing exactly once.  The code adds the root
package once via `create_workspace_components` and, because the
dedup set starts empty and the member-skip test is vacuous when there are
no workspace members, a second time via the node loop: on the
single-project lock rooted at `a 1.0` with `a 1.0` in the filtered list,
the component list carries the identifier `pkg:pypi/a@1.0` twice. -/
theorem c2_bug_exhibit :
    (generateCycloneDxBom targetSingleA [pkgA] true 0 "t0").map
        (fun doc => (doc.components.getD []).map (fun c => c.bomRef)) =
      .ok ["pkg:pypi/a@1.0", "pkg:pypi/a@1.0"] ∧
    ¬ (["pkg:pypi/a@1.0", "pkg:pypi/a@1.0"] : List String).Nodup :=
  ⟨rfl, by decide⟩

/-! ## Claim C3 — component identifier versus purl -/

/-- Claim C3, counterexample.  The claim says a component's `bom-ref` is the
Package-URL Builder's output, carrying the `?vcs_url=` suffix for a
Git-sourced package, and hence equals the `purl` field.  For the
Git-sourced package `foo` the `bom-ref` is the bare
`pkg:pypi/foo@unknown` while the `purl` carries the suffix: the two
fields differ. -/
theorem c3_counterexample :
    (createComponentFromPackage gitFoo false).map (fun c => (c.bomRef, c.purl)) =
      .ok ("pkg:pypi/foo@unknown",
           some "pkg:pypi/foo@unknown?vcs_url=https%3A%2F%2Fexample%2Ecom%2Ffoo%2Egit") ∧
    ("pkg:pypi/foo@unknown" : String) ≠
      "pkg:pypi/foo@unknown?vcs_url=https%3A%2F%2Fexample%2Ecom%2Ffoo%2Egit" :=
  ⟨rfl, by decide⟩

/-! ## Claim C7 — the Package-URL Builder table -/

/-- Claim C7, counterexample.  The claim's concrete example keeps the `.` of
`example.com` and `foo.git` unescaped, but the conservative
`NON_ALPHANUMERIC` encoding escapes every non-alphanumeric byte, `.`
included: the builder yields `...example%2Ecom%2Ffoo%2Egit`, not the
claimed `...example.com%2Ffoo.git`. -/
theorem c7_counterexample :
    createPurlFromPackage gitFoo =
      .ok "pkg:pypi/foo@unknown?vcs_url=https%3A%2F%2Fexample%2Ecom%2Ffoo%2Egit" ∧
    createPurlFromPackage gitFoo ≠
      .ok "pkg:pypi/foo@unknown?vcs_url=https%3A%2F%2Fexample.com%2Ffoo.git" :=
  ⟨rfl, by decide⟩

/-! ## Claim C8 — timestamp usage -/

/-- Claim C8, counterexample.  The claim says two assemblies of the same
lock input at different times differ only in the serial number and the
synthetic root-component reference string.  The wall clock is read a
second time for the metadata timestamp, so the two documents also differ
in `metadata.timestamp` — while the rest of the content (components,
edge target lists) indeed agrees. -/
theorem c8_counterexample :
    (generateCycloneDxBom targetSingleA [pkgA] false 1 "2100-01-01T00:00:00Z").map
        (fun d => d.metadata.timestamp) ≠
      (generateCycloneDxBom targetSingleA [pkgA] false 2 "2100-01-01T00:00:05Z").map
        (fun d => d.metadata.timestamp) ∧
    (generateCycloneDxBom targetSingleA [pkgA] false 1 "2100-01-01T00:00:00Z").map
        (fun d => (d.components, (d.dependencies.getD []).map (fun e => e.dependsOn))) =
      (generateCycloneDxBom targetSingleA [pkgA] false 2 "2100-01-01T00:00:05Z").map
        (fun d => (d.components, (d.dependencies.getD []).map (fun e => e.dependsOn))) :=
  ⟨by decide, rfl⟩

/-! ## Claim C6 — per-package edges -/

/-- Among the edges contributed by a list of nodes with pairwise distinct
references, the edges bearing a given member's reference are exactly that
member's own edge (present when its target list is non-empty). -/
theorem filter_pkg_edges_eq (nodes : List Package) (l : List Package) (n : Package)
    (hnd : (l.map pkgRef).Nodup) (hn : n ∈ l) :
    (l.filterMap (pkgEdge nodes)).filter (fun d => decide (d.ref = pkgRef n)) =
    (if (depTargets nodes n).isEmpty then []
     else [{ ref := pkgRef n, dependsOn := depTargets nodes n }]) := by
  induction l with
  | nil => cases hn
  | cons m ms ih =>
    rw [List.map_cons, List.nodup_cons] at hnd
    obtain ⟨hm_notin, hnd'⟩ := hnd
    rcases List.mem_cons.mp hn with rfl | hn'
    · have hrest : ((ms.filterMap (pkgEdge nodes)).filter
          (fun d => decide (d.ref = pkgRef n))) = [] := by
        apply filter_ref_eq_nil
        intro d hd
        rcases mem_perPackageEdges hd with ⟨m', hm', -, rfl⟩
        intro hcontra
        exact hm_notin (hcontra ▸ List.mem_map_of_mem pkgRef hm')
      by_cases he : (depTargets nodes n).isEmpty
      · rw [List.filterMap_cons_none (by rw [pkgEdge, if_pos he]), if_pos he]
        exact hrest
      · rw [List.filterMap_cons_some (by rw [pkgEdge, if_neg he]), if_neg he,
          List.filter_cons]
        simp only [decide_True, if_true]
        rw [hrest]
    · have hne : pkgRef m ≠ pkgRef n := by
        intro hcontra
        exact hm_notin (hcontra ▸ List.mem_map_of_mem pkgRef hn')
      by_cases he : (depTargets nodes m).isEmpty
      · rw [List.filterMap_cons_none (by rw [pkgEdge, if_pos he])]
        exact ih hnd' hn'
      · rw [List.filterMap_cons_some (by rw [pkgEdge, if_neg he]), List.filter_cons]
        simp only [hne, decide_False, if_false]
        exact ih hnd' hn'

/-- Claim C6.  For every package `n` of the filtered input list (the list's
references being pairwise distinct, and none colliding with the main
reference), the generated edge list contains exactly one edge whose
source is `n`'s identifier when `n` has at least one direct dependency
present in the filtered list — its target list being the identifiers of
exactly those found dependencies, in the order `n` enumerates them — and
no such edge when it has none. -/
theorem c6_per_package_edges (t : Target) (nodes : List Package) (mainRef : String)
    (ds : List Dependency) (n : Package)
    (hnd : (nodes.map pkgRef).Nodup)
    (hm : ∀ m ∈ nodes, pkgRef m ≠ mainRef)
    (h : createDependencyRelationships t nodes mainRef = .ok ds)
    (hn : n ∈ nodes) :
    ds.filter (fun d => decide (d.ref = pkgRef n)) =
      (if (depTargets nodes n).isEmpty then []
       else [{ ref := pkgRef n, dependsOn := depTargets nodes n }]) := by
  have hds : ds = (if (mainDepsList t.lock nodes).isEmpty then []
      else [{ ref := mainRef, dependsOn := mainDepsList t.lock nodes }]) ++
        perPackageEdges nodes := (Except.ok.inj h).symm
  subst hds
  rw [List.filter_append]
  have hroot : (List.filter (fun d => decide (d.ref = pkgRef n))
      (if (mainDepsList t.lock nodes).isEmpty then ([] : List Dependency)
       else [{ ref := mainRef, dependsOn := mainDepsList t.lock nodes }])) = [] := by
    by_cases he : (mainDepsList t.lock nodes).isEmpty
    · rw [if_pos he]; rfl
    · rw [if_neg he]
      apply filter_ref_eq_nil
      intro d hd
      have hd' := List.mem_singleton.mp hd
      subst hd'
      exact fun hcontra => hm n hn hcontra.symm
  rw [hroot, List.nil_append]
  exact filter_pkg_edges_eq nodes nodes n hnd hn

/-- Claim C6, witness.  The per-package-edge theorem applied to the
two-package lock `lockAB` at the package `b`, which depends on `a`. -/
theorem c6_witness :
    ([({ ref := "urn:uv-bom:0",
         dependsOn := ["pkg:pypi/a@1.0", "pkg:pypi/b@2.0"] } : Dependency),
      { ref := "pkg:pypi/b@2.0", dependsOn := ["pkg:pypi/a@1.0"] }].filter
        (fun d => decide (d.ref = pkgRef pkgB))) =
      (if (depTargets [pkgA, pkgB] pkgB).isEmpty then []
       else [{ ref := pkgRef pkgB, dependsOn := depTargets [pkgA, pkgB] pkgB }]) := by
  exact c6_per_package_edges targetAB [pkgA, pkgB] "urn:uv-bom:0"
    [{ ref := "urn:uv-bom:0", dependsOn := ["pkg:pypi/a@1.0", "pkg:pypi/b@2.0"] },
     { ref := "pkg:pypi/b@2.0", dependsOn := ["pkg:pypi/a@1.0"] }]
    pkgB (by decide) (by decide) rfl (by decide)

/-! ## Claims C3 and C7 — identifiers and package URLs -/

/-- For a source kind without a URL qualifier, the Package-URL Builder
returns exactly the bare reference string. -/
theorem createPurl_no_qualifier (p : Package) (h : hasUrlQualifier p = false) :
    createPurlFromPackage p = .ok (pkgRef p) := by
  unfold hasUrlQualifier at h
  unfold createPurlFromPackage
  cases hs : p.id.source <;> rw [hs] at h <;>
    first
    | rfl
    | exact Bool.noConfusion h

/-- Claim C3, amended claim.  Every workspace-member, single-project, and
external component's `bom-ref` is the bare reference
`pkg:pypi/<name>@<version-or-unknown>` with no location suffix, while its
`purl` field is the Package-URL Builder's output; the two coincide
exactly for sources without a URL qualifier (the original claim's
"bom-ref equals purl" fails for Git/Direct sources, see the
counterexample). -/
theorem c3_amended :
    (∀ (p : Package) (ihash : Bool) (c : Component),
        createComponentFromPackage p ihash = .ok c →
        c.bomRef = pkgRef p ∧ c.purl.isSome = true ∧
        createPurlFromPackage p = .ok (c.purl.getD "") ∧
        (hasUrlQualifier p = false → c.purl = some c.bomRef)) ∧
    (∀ (p : Package) (c : Component),
        createWorkspaceMemberComponent p = .ok c →
        c.bomRef = pkgRef p ∧ c.purl.isSome = true ∧
        createPurlFromPackage p = .ok (c.purl.getD "") ∧
        (hasUrlQualifier p = false → c.purl = some c.bomRef)) ∧
    (∀ (p : Package) (c : Component),
        createSingleProjectComponent p = .ok c →
        c.bomRef = pkgRef p ∧ c.purl.isSome = true ∧
        createPurlFromPackage p = .ok (c.purl.getD "") ∧
        (hasUrlQualifier p = false → c.purl = some c.bomRef)) := by
  have main : ∀ (p : Package) (c : Component) (purl : String),
      createPurlFromPackage p = .ok purl →
      c.bomRef = pkgRef p → c.purl = some purl →
      c.bomRef = pkgRef p ∧ c.purl.isSome = true ∧
      createPurlFromPackage p = .ok (c.purl.getD "") ∧
      (hasUrlQualifier p = false → c.purl = some c.bomRef) := by
    intro p c purl hp hb hu
    refine ⟨hb, by rw [hu]; rfl, by rw [hu, hp]; rfl, ?_⟩
    intro hq
    have h2 := createPurl_no_qualifier p hq
    rw [hp] at h2
    rw [hu, hb, Except.ok.inj h2]
  refine ⟨?_, ?_, ?_⟩
  · intro p ihash c hc
    cases hp : createPurlFromPackage p
    · rw [createComponentFromPackage, hp, exceptBind_error] at hc
      cases hc
    · rename_i purl
      simp only [createComponentFromPackage, hp, exceptBind_ok, Except.ok.injEq] at hc
      have hres := main p c purl hp (by rw [← hc]) (by rw [← hc])
      rw [hp] at hres
      exact hres
  · intro p c hc
    cases hp : createPurlFromPackage p
    · rw [createWorkspaceMemberComponent, hp, exceptBind_error] at hc
      cases hc
    · rename_i purl
      simp only [createWorkspaceMemberComponent, hp, exceptBind_ok, Except.ok.injEq] at hc
      have hres := main p c purl hp (by rw [← hc]) (by rw [← hc])
      rw [hp] at hres
      exact hres
  · intro p c hc
    cases hp : createPurlFromPackage p
    · rw [createSingleProjectComponent, hp, exceptBind_error] at hc
      cases hc
    · rename_i purl
      simp only [createSingleProjectComponent, hp, exceptBind_ok, Except.ok.injEq] at hc
      have hres := main p c purl hp (by rw [← hc]) (by rw [← hc])
      rw [hp] at hres
      exact hres

/-- Claim C3, witness.  The amended identifier/purl theorem applied to the
registry package `pkgA`. -/
theorem c3_witness : cExtA0.bomRef = pkgRef pkgA ∧ cExtA0.purl = some cExtA0.bomRef := by
  have h := c3_amended.1 pkgA false cExtA0 rfl
  exact ⟨h.1, h.2.2.2 rfl⟩

/-- Claim C7, amended claim.  The Package-URL Builder follows the
source-kind table with the `unknown` sentinel for an absent version:
Registry and the suffix-free kinds yield the bare reference, Git and
Direct append the percent-encoded `vcs_url`/`download_url` qualifier in
which every non-alphanumeric byte is escaped — so the concrete Git
example yields `pkg:pypi/foo@unknown?vcs_url=https%3A%2F%2Fexample%2Ecom
%2Ffoo%2Egit` (the original claim's example string, which leaves the two
dots unescaped, is refuted by the counterexample). -/
theorem c7_amended :
    (∀ (p : Package) (r : String), p.id.source = Source.registry r →
        createPurlFromPackage p = .ok (pkgRef p)) ∧
    (∀ (p : Package) (u : RawUrl) (g : String), p.id.source = Source.git u g →
        u.wellFormed = true →
        createPurlFromPackage p = .ok (pkgRef p ++ "?vcs_url=" ++ percentEncode u.raw)) ∧
    (∀ (p : Package) (u : RawUrl) (d : String), p.id.source = Source.direct u d →
        u.wellFormed = true →
        createPurlFromPackage p =
          .ok (pkgRef p ++ "?download_url=" ++ percentEncode u.raw)) ∧
    (∀ (p : Package), hasUrlQualifier p = false →
        createPurlFromPackage p = .ok (pkgRef p)) ∧
    createPurlFromPackage gitFoo =
      .ok "pkg:pypi/foo@unknown?vcs_url=https%3A%2F%2Fexample%2Ecom%2Ffoo%2Egit" := by
  refine ⟨?_, ?_, ?_, createPurl_no_qualifier, rfl⟩
  · intro p r hs
    unfold createPurlFromPackage
    rw [hs]
    rfl
  · intro p u g hs hw
    unfold createPurlFromPackage
    rw [hs]
    rcases u with ⟨raw, wf⟩
    cases hw
    rfl
  · intro p u d hs hw
    unfold createPurlFromPackage
    rw [hs]
    rcases u with ⟨raw, wf⟩
    cases hw
    rfl

/-- Claim C7, witness.  The Git row of the amended purl-table theorem
applied to `gitFoo`. -/
theorem c7_witness :
    createPurlFromPackage gitFoo =
      .ok (pkgRef gitFoo ++ "?vcs_url=" ++ percentEncode "https://example.com/foo.git") :=
  c7_amended.2.1 gitFoo { raw := "https://example.com/foo.git", wellFormed := true }
    "rev" rfl rfl

/-! ## Claim C5 — referential integrity -/

/-- A successfully built workspace-member component bears the package's
bare reference and no hashes. -/
theorem createWorkspaceMemberComponent_fields {p : Package} {c : Component}
    (h : createWorkspaceMemberComponent p = .ok c) :
    c.bomRef = pkgRef p ∧ c.hashes = none := by
  cases hp : createPurlFromPackage p
  · rw [createWorkspaceMemberComponent, hp, exceptBind_error] at h
    cases h
  · simp only [createWorkspaceMemberComponent, hp, exceptBind_ok, Except.ok.injEq] at h
    rw [← h]
    exact ⟨rfl, rfl⟩

/-- A successfully built single-project component bears the package's bare
reference and no hashes. -/
theorem createSingleProjectComponent_fields {p : Package} {c : Component}
    (h : createSingleProjectComponent p = .ok c) :
    c.bomRef = pkgRef p ∧ c.hashes = none := by
  cases hp : createPurlFromPackage p
  · rw [createSingleProjectComponent, hp, exceptBind_error] at h
    cases h
  · simp only [createSingleProjectComponent, hp, exceptBind_ok, Except.ok.injEq] at h
    rw [← h]
    exact ⟨rfl, rfl⟩

/-- A successfully built external component bears the package's bare
reference. -/
theorem createComponentFromPackage_bomRef {p : Package} {includeHashes : Bool}
    {c : Component} (h : createComponentFromPackage p includeHashes = .ok c) :
    c.bomRef = pkgRef p := by
  cases hp : createPurlFromPackage p
  · rw [createComponentFromPackage, hp, exceptBind_error] at h
    cases h
  · simp only [createComponentFromPackage, hp, exceptBind_ok, Except.ok.injEq] at h
    rw [← h]

/-- The member components' references are exactly the found members'
references, in order. -/
theorem memberComponentsAux_refs {lock : Lock} {ms : List String} {cs : List Component}
    (h : memberComponentsAux lock ms = .ok cs) :
    cs.map (fun c => c.bomRef) = ms.filterMap (fun m => (findByName lock m).map pkgRef) := by
  induction ms generalizing cs with
  | nil =>
    have := Except.ok.inj h
    subst this
    rfl
  | cons m ms ih =>
    simp only [memberComponentsAux] at h
    cases hf : findByName lock m <;> rw [hf] at h
    · rw [optElim_none] at h
      rw [List.filterMap_cons_none (by rw [hf]; rfl)]
      exact ih h
    · rename_i p
      simp only [optElim_some] at h
      cases hc : createWorkspaceMemberComponent p <;> rw [hc] at h
      · rw [exceptBind_error] at h
        cases h
      · rename_i c
        rw [exceptBind_ok] at h
        cases ha : memberComponentsAux lock ms <;> rw [ha] at h
        · rw [exceptBind_error] at h
          cases h
        · rename_i rest
          rw [exceptBind_ok] at h
          have := Except.ok.inj h
          subst this
          rw [List.map_cons, List.filterMap_cons_some (by rw [hf]; rfl),
            (createWorkspaceMemberComponent_fields hc).1, ih ha]

/-- The workspace components' references are exactly the member-derived
root-edge targets followed by the root-package-derived targets. -/
theorem createWorkspaceComponents_refs {t : Target} {ws : List Component}
    (h : createWorkspaceComponents t = .ok ws) :
    ws.map (fun c => c.bomRef) = memberMainDeps t.lock ++ rootMainDeps t.lock := by
  simp only [createWorkspaceComponents] at h
  cases ha : memberComponentsAux t.lock t.lock.members <;> rw [ha] at h
  · rw [exceptBind_error] at h
    cases h
  · rename_i comps
    rw [exceptBind_ok] at h
    unfold memberMainDeps rootMainDeps
    by_cases he : t.lock.members.isEmpty
    · rw [if_pos he] at h
      rw [if_pos he]
      cases hr : t.lock.root <;> rw [hr] at h
      · rw [optElim_none] at h
        have := Except.ok.inj h
        subst this
        rw [optElim_none, List.append_nil]
        exact memberComponentsAux_refs ha
      · rename_i rootPackage
        simp only [optElim_some] at h
        cases hc : createSingleProjectComponent rootPackage <;> rw [hc] at h
        · rw [exceptBind_error] at h
          cases h
        · rename_i c
          rw [exceptBind_ok] at h
          have := Except.ok.inj h
          subst this
          rw [optElim_some, List.map_append, memberComponentsAux_refs ha]
          rw [List.map_singleton, (createSingleProjectComponent_fields hc).1]
    · rw [if_neg he] at h
      rw [if_neg he]
      have := Except.ok.inj h
      subst this
      rw [List.append_nil]
      exact memberComponentsAux_refs ha

/-- Every node the dependency-component loop processes ends up with its
reference either in the dedup set it started from or among the produced
components' references. -/
theorem depComponentsAux_refs_cover {members : List String} {includeHashes : Bool}
    {ns : List Package} :
    ∀ {seen : List String} {cs : List Component},
      depComponentsAux members includeHashes ns seen = .ok cs →
      ∀ n ∈ ns, skipNode members n = false →
        pkgRef n ∈ seen ∨ pkgRef n ∈ cs.map (fun c => c.bomRef) := by
  induction ns with
  | nil =>
    intro seen cs h n hn
    cases hn
  | cons m ms ih =>
    intro seen cs h n hn hskip
    simp only [depComponentsAux] at h
    rcases List.mem_cons.mp hn with rfl | hn'
    · rw [if_neg (by rw [hskip]; exact Bool.false_ne_true)] at h
      cases hc : createComponentFromPackage n includeHashes <;> rw [hc] at h
      · rw [exceptBind_error] at h
        cases h
      · rename_i c
        rw [exceptBind_ok] at h
        have hcr := createComponentFromPackage_bomRef hc
        by_cases hseen : c.bomRef ∈ seen
        · left
          rw [← hcr]
          exact hseen
        · rw [if_neg (by rw [decide_eq_false hseen]; exact Bool.false_ne_true)] at h
          cases ha : depComponentsAux members includeHashes ms (c.bomRef :: seen) <;>
            rw [ha] at h
          · rw [exceptBind_error] at h
            cases h
          · rename_i rest
            rw [exceptBind_ok] at h
            have := Except.ok.inj h
            subst this
            right
            rw [List.map_cons, ← hcr]
            exact List.mem_cons_self _ _
    · by_cases hskipm : skipNode members m
      · rw [if_pos hskipm] at h
        exact ih h n hn' hskip
      · rw [if_neg hskipm] at h
        cases hc : createComponentFromPackage m includeHashes <;> rw [hc] at h
        · rw [exceptBind_error] at h
          cases h
        · rename_i c
          rw [exceptBind_ok] at h
          by_cases hseen : c.bomRef ∈ seen
          · rw [if_pos (decide_eq_true hseen)] at h
            exact ih h n hn' hskip
          · rw [if_neg (by rw [decide_eq_false hseen]; exact Bool.false_ne_true)] at h
            cases ha : depComponentsAux members includeHashes ms (c.bomRef :: seen) <;>
              rw [ha] at h
            · rw [exceptBind_error] at h
              cases h
            · rename_i rest
              rw [exceptBind_ok] at h
              have := Except.ok.inj h
              subst this
              rcases ih ha n hn' hskip with hmem | hmem
              · rcases List.mem_cons.mp hmem with heq | hmem'
                · right
                  rw [List.map_cons, heq]
                  exact List.mem_cons_self _ _
                · left
                  exact hmem'
              · right
                rw [List.map_cons]
                exact List.mem_cons_of_mem _ hmem

/-- Collapsing the empty-to-`None` wrapping of an optional list. -/
theorem getD_if_isEmpty {α : Type} (l : List α) :
    (if l.isEmpty then (none : Option (List α)) else some l).getD [] = l := by
  cases l <;> rfl

/-- Claim C5.  Under the collaborator contract that every filtered node
bearing a workspace member's name is that member's unique lock entry,
every reference appearing as the source or a target of any dependency
edge of a successfully assembled document is either the main component's
identifier or the identifier of a component present in the component
list: the document never references a non-existent component. -/
theorem c5_no_dangling (t : Target) (nodes : List Package) (includeHashes : Bool)
    (now : Nat) (ts : String) (doc : CycloneDx)
    (hmem : ∀ n ∈ nodes, n.id.name ∈ t.lock.members →
      findByName t.lock n.id.name = some n)
    (hgen : generateCycloneDxBom t nodes includeHashes now ts = .ok doc) :
    ∀ d ∈ doc.dependencies.getD [], d.ref ∈ docRefs doc ∧
      ∀ r ∈ d.dependsOn, r ∈ docRefs doc := by
  simp only [generateCycloneDxBom, createMainComponent, exceptBind_ok] at hgen
  cases ha : createWorkspaceComponents t <;> rw [ha] at hgen
  case error =>
    rw [exceptBind_error] at hgen
    cases hgen
  case ok ws =>
  rw [exceptBind_ok] at hgen
  cases hb : depComponentsAux t.lock.members includeHashes nodes [] <;> rw [hb] at hgen
  case error =>
    rw [exceptBind_error] at hgen
    cases hgen
  case ok dcs =>
  simp only [exceptBind_ok, createDependencyRelationships] at hgen
  have hdoc := Except.ok.inj hgen
  have hdeps : doc.dependencies.getD [] =
      (if (mainDepsList t.lock nodes).isEmpty then ([] : List Dependency)
       else [{ ref := "urn:uv-bom:" ++ toString now,
               dependsOn := mainDepsList t.lock nodes }]) ++ perPackageEdges nodes := by
    have hfield : doc.dependencies =
        (if ((if (mainDepsList t.lock nodes).isEmpty then ([] : List Dependency)
              else [{ ref := "urn:uv-bom:" ++ toString now,
                      dependsOn := mainDepsList t.lock nodes }]) ++
             perPackageEdges nodes).isEmpty then none
         else some ((if (mainDepsList t.lock nodes).isEmpty then ([] : List Dependency)
              else [{ ref := "urn:uv-bom:" ++ toString now,
                      dependsOn := mainDepsList t.lock nodes }]) ++
             perPackageEdges nodes)) := by
      rw [← hdoc]
    rw [hfield, getD_if_isEmpty]
  have hcomps : doc.components.getD [] = ws ++ dcs := by
    have hfield : doc.components =
        (if (ws ++ dcs).isEmpty then none else some (ws ++ dcs)) := by
      rw [← hdoc]
    rw [hfield, getD_if_isEmpty]
  have hmc : docRefs doc =
      ("urn:uv-bom:" ++ toString now) :: (ws ++ dcs).map (fun c => c.bomRef) := by
    unfold docRefs
    rw [hcomps]
    have hfield : doc.metadata.component =
        some { bomRef := "urn:uv-bom:" ++ toString now
               type := if t.lock.members.length > 1 || t.projectName.isNone
                       then "application" else "application"
               name := match t.projectName with
                       | some n => n
                       | none => match t.installDirName with
                                 | some d => d
                                 | none => "workspace"
               version := none
               description := some "uv workspace or project"
               hashes := none
               purl := none
               properties := none } := by
      rw [← hdoc]
    rw [hfield]
    rfl
  have hwsrefs := createWorkspaceComponents_refs ha
  have hcover : ∀ n ∈ nodes, pkgRef n ∈ (ws ++ dcs).map (fun c => c.bomRef) := by
    intro n hn
    rw [List.map_append]
    cases hskip : skipNode t.lock.members n
    case false =>
      rcases depComponentsAux_refs_cover hb n hn hskip with hin | hin
      · cases hin
      · exact List.mem_append_right _ hin
    case true =>
      apply List.mem_append_left
      rw [hwsrefs]
      apply List.mem_append_left
      have hnm : n.id.name ∈ t.lock.members := by
        have := (Bool.and_eq_true _ _).mp hskip
        exact of_decide_eq_true this.2
      have hfind := hmem n hn hnm
      exact List.mem_filterMap.mpr ⟨n.id.name, hnm, by rw [hfind]; rfl⟩
  have htargets : ∀ r ∈ mainDepsList t.lock nodes, r ∈ docRefs doc := by
    intro r hr
    rw [hmc]
    apply List.mem_cons_of_mem
    unfold mainDepsList at hr
    rcases List.mem_append.mp hr with hr1 | hr2
    · rcases List.mem_append.mp hr1 with hra | hrb
      · rw [List.map_append]
        exact List.mem_append_left _ (by rw [hwsrefs]; exact List.mem_append_left _ hra)
      · rw [List.map_append]
        exact List.mem_append_left _ (by rw [hwsrefs]; exact List.mem_append_right _ hrb)
    · rcases List.mem_filterMap.mp hr2 with ⟨n, hn, hf⟩
      by_cases hd : n.id.name ∈ t.lock.members
      · rw [if_pos (decide_eq_true hd)] at hf
        cases hf
      · rw [if_neg (by rw [decide_eq_false hd]; exact Bool.false_ne_true)] at hf
        have := Option.some.inj hf
        subst this
        exact hcover n hn
  intro d hd
  rw [hdeps] at hd
  rcases List.mem_append.mp hd with hdroot | hdper
  · by_cases he : (mainDepsList t.lock nodes).isEmpty
    · rw [if_pos he] at hdroot
      cases hdroot
    · rw [if_neg he] at hdroot
      have := List.mem_singleton.mp hdroot
      subst this
      refine ⟨?_, ?_⟩
      · rw [hmc]
        exact List.mem_cons_self _ _
      · intro r hr
        exact htargets r hr
  · rcases mem_perPackageEdges hdper with ⟨n, hn, -, rfl⟩
    refine ⟨?_, ?_⟩
    · rw [hmc]
      exact List.mem_cons_of_mem _ (hcover n hn)
    · intro r hr
      rcases List.mem_filterMap.mp hr with ⟨dep, hdep, hf⟩
      cases hfind : nodes.find? (fun p => decide (p.id = dep.packageId)) <;> rw [hfind] at hf
      · cases hf
      · rename_i p
        simp only [Option.map_some'] at hf
        have := Option.some.inj hf
        subst this
        rw [hmc]
        exact List.mem_cons_of_mem _ (hcover p (List.mem_of_find?_eq_some hfind))

/-- Claim C5, witness.  The referential-integrity theorem applied to the
two-package lock `lockAB`: the target `pkg:pypi/a@1.0` of the root edge
is a declared component reference. -/
theorem c5_witness : ("pkg:pypi/a@1.0" : String) ∈ docRefs docAB7 := by
  have h := c5_no_dangling targetAB [pkgA, pkgB] false 7 "t7" docAB7 (by decide) rfl
  exact (h { ref := "urn:uv-bom:7", dependsOn := ["pkg:pypi/a@1.0", "pkg:pypi/b@2.0"] }
    (by decide)).2 "pkg:pypi/a@1.0" (by decide)

/-! ## Claim C4 — the single failure path -/

/-- The URL conversion succeeds exactly on well-formed locations. -/
theorem toUrl_ok (u : RawUrl) : exceptOk (toUrl u) = u.wellFormed := by
  rcases u with ⟨raw, wf⟩
  cases wf <;> rfl

/-- The Package-URL Builder succeeds exactly when the package's source is
not a malformed Git/Direct location. -/
theorem createPurlFromPackage_ok (p : Package) :
    exceptOk (createPurlFromPackage p) = !badSource p := by
  unfold createPurlFromPackage badSource
  cases hs : p.id.source <;>
    first
    | rfl
    | (rename_i u _
       rcases u with ⟨raw, wf⟩
       cases wf <;> rfl)

/-- An external component build succeeds exactly when the purl build does. -/
theorem createComponentFromPackage_ok (p : Package) (includeHashes : Bool) :
    exceptOk (createComponentFromPackage p includeHashes) = !badSource p := by
  rw [← createPurlFromPackage_ok p]
  unfold createComponentFromPackage
  cases hp : createPurlFromPackage p <;> rfl

/-- A workspace-member component build succeeds exactly when the purl
build does. -/
theorem createWorkspaceMemberComponent_ok (p : Package) :
    exceptOk (createWorkspaceMemberComponent p) = !badSource p := by
  rw [← createPurlFromPackage_ok p]
  unfold createWorkspaceMemberComponent
  cases hp : createPurlFromPackage p <;> rfl

/-- A single-project component build succeeds exactly when the purl build
does. -/
theorem createSingleProjectComponent_ok (p : Package) :
    exceptOk (createSingleProjectComponent p) = !badSource p := by
  rw [← createPurlFromPackage_ok p]
  unfold createSingleProjectComponent
  cases hp : createPurlFromPackage p <;> rfl

/-- The member loop succeeds exactly when every found member package has a
sound source. -/
theorem memberComponentsAux_ok (lock : Lock) (ms : List String) :
    exceptOk (memberComponentsAux lock ms) =
      (ms.filterMap (findByName lock)).all (fun p => !badSource p) := by
  induction ms with
  | nil => rfl
  | cons m ms ih =>
    unfold memberComponentsAux
    cases hf : findByName lock m
    · rw [List.filterMap_cons_none hf, optElim_none]
      exact ih
    · rename_i p
      simp only [List.filterMap_cons_some hf, optElim_some, List.all_cons]
      have h := createWorkspaceMemberComponent_ok p
      cases hc : createWorkspaceMemberComponent p <;> rw [hc] at h
      · have h' : (!badSource p) = false := h.symm
        rw [exceptBind_error, h', Bool.false_and]
        rfl
      · have h' : (!badSource p) = true := h.symm
        rw [exceptBind_ok, h', Bool.true_and, ← ih]
        cases ha : memberComponentsAux lock ms <;> rfl

/-- The workspace-component pass succeeds exactly when every
workspace/root package has a sound source. -/
theorem createWorkspaceComponents_ok (t : Target) :
    exceptOk (createWorkspaceComponents t) =
      (workspacePackages t).all (fun p => !badSource p) := by
  unfold createWorkspaceComponents workspacePackages
  rw [List.all_append]
  have h := memberComponentsAux_ok t.lock t.lock.members
  cases ha : memberComponentsAux t.lock t.lock.members <;> rw [ha] at h
  · have h' : ((t.lock.members.filterMap (findByName t.lock)).all
        (fun p => !badSource p)) = false := h.symm
    rw [exceptBind_error, h', Bool.false_and]
    rfl
  · have h' : ((t.lock.members.filterMap (findByName t.lock)).all
        (fun p => !badSource p)) = true := h.symm
    rw [exceptBind_ok, h', Bool.true_and]
    by_cases he : t.lock.members.isEmpty
    · rw [if_pos he, if_pos he]
      cases hr : t.lock.root
      · rfl
      · rename_i rootPackage
        simp only [optElim_some, Option.toList_some, List.all_cons, List.all_nil,
          Bool.and_true]
        have h2 := createSingleProjectComponent_ok rootPackage
        cases hc : createSingleProjectComponent rootPackage <;> rw [hc] at h2
        · rw [exceptBind_error, ← h2]
          rfl
        · rw [exceptBind_ok, ← h2]
          rfl
    · rw [if_neg he, if_neg he]
      rfl

/-- The dependency-component loop succeeds exactly when every non-skipped
node has a sound source, irrespective of the dedup set. -/
theorem depComponentsAux_ok (members : List String) (includeHashes : Bool)
    (ns : List Package) :
    ∀ seen, exceptOk (depComponentsAux members includeHashes ns seen) =
      (ns.filter (fun n => !skipNode members n)).all (fun p => !badSource p) := by
  induction ns with
  | nil => intro seen; rfl
  | cons n ns ih =>
    intro seen
    unfold depComponentsAux
    cases hsk : skipNode members n
    case true =>
      rw [if_pos rfl, List.filter_cons_of_neg (by rw [hsk]; simp)]
      exact ih seen
    case false =>
      rw [if_neg Bool.false_ne_true,
        List.filter_cons_of_pos (by rw [hsk]; rfl), List.all_cons]
      have h := createComponentFromPackage_ok n includeHashes
      cases hc : createComponentFromPackage n includeHashes <;> rw [hc] at h
      · have h' : (!badSource n) = false := h.symm
        rw [exceptBind_error, h', Bool.false_and]
        rfl
      · rename_i c
        have h' : (!badSource n) = true := h.symm
        rw [exceptBind_ok, h', Bool.true_and]
        by_cases hseen : c.bomRef ∈ seen
        · rw [if_pos (decide_eq_true hseen)]
          exact ih seen
        · rw [if_neg (by rw [decide_eq_false hseen]; exact Bool.false_ne_true),
            ← ih (c.bomRef :: seen)]
          cases ha : depComponentsAux members includeHashes ns (c.bomRef :: seen) <;> rfl

/-- The whole export succeeds exactly when every purl-built package has a
sound source. -/
theorem generateCycloneDxBom_ok (t : Target) (nodes : List Package)
    (includeHashes : Bool) (now : Nat) (ts : String) :
    exceptOk (generateCycloneDxBom t nodes includeHashes now ts) =
      (purlBuiltPackages t nodes).all (fun p => !badSource p) := by
  have hw := createWorkspaceComponents_ok t
  have hd := depComponentsAux_ok t.lock.members includeHashes nodes []
  simp only [generateCycloneDxBom, createMainComponent, exceptBind_ok, purlBuiltPackages,
    List.all_append]
  cases ha : createWorkspaceComponents t <;> rw [ha] at hw
  · have hw' : ((workspacePackages t).all (fun p => !badSource p)) = false := hw.symm
    rw [exceptBind_error, hw', Bool.false_and]
    rfl
  · have hw' : ((workspacePackages t).all (fun p => !badSource p)) = true := hw.symm
    rw [exceptBind_ok, hw', Bool.true_and]
    cases hb : depComponentsAux t.lock.members includeHashes nodes [] <;> rw [hb] at hd
    · have hd' : ((nodes.filter (fun n => !skipNode t.lock.members n)).all
          (fun p => !badSource p)) = false := hd.symm
      rw [exceptBind_error, hd']
      rfl
    · have hd' : ((nodes.filter (fun n => !skipNode t.lock.members n)).all
          (fun p => !badSource p)) = true := hd.symm
      rw [exceptBind_ok, hd']
      rfl

/-- Claim C4.  The export fails if and only if one of the packages for which
a package URL is constructed (found workspace members, the single-project
root, and every non-skipped node of the filtered list) is a Git- or
Direct-sourced package whose recorded location is not a well-formed URL;
there is then no partial output (the result is an error value, not a
document).  Every other missing-data situation — absent version, absent
project name, no hashes, a dependency outside the exported set — is
absorbed by a policy default and never fails. -/
theorem c4_failure_iff (t : Target) (nodes : List Package) (includeHashes : Bool)
    (now : Nat) (ts : String) :
    (∃ e, generateCycloneDxBom t nodes includeHashes now ts = .error e) ↔
    (∃ p ∈ purlBuiltPackages t nodes, badSource p = true) := by
  have h := generateCycloneDxBom_ok t nodes includeHashes now ts
  constructor
  · rintro ⟨e, he⟩
    rw [he] at h
    have hall : (purlBuiltPackages t nodes).all (fun p => !badSource p) = false := h.symm
    rcases List.all_eq_false.mp hall with ⟨p, hp, hbad⟩
    refine ⟨p, hp, ?_⟩
    simpa using hbad
  · rintro ⟨p, hp, hbad⟩
    have hall : (purlBuiltPackages t nodes).all (fun p => !badSource p) = false := by
      apply List.all_eq_false.mpr
      exact ⟨p, hp, by simp [hbad]⟩
    rw [hall] at h
    cases hg : generateCycloneDxBom t nodes includeHashes now ts
    · exact ⟨_, rfl⟩
    · rw [hg] at h
      cases h

/-! ## Claim C8 — timestamp usage (amended) -/

/-- A package reference never collides with a synthetic `urn:uv-bom:`
reference: the former starts with `p`, the latter with `u`. -/
theorem pkgRef_ne_urn (p : Package) (s : String) :
    pkgRef p ≠ "urn:uv-bom:" ++ s := by
  unfold pkgRef
  intro h
  have hd := congrArg String.data h
  simp only [String.data_append] at hd
  simp [List.cons_append] at hd

/-- Replacing a reference no edge bears leaves the edge list unchanged. -/
theorem map_keep_of_ne {l : List Dependency} {r1 r2 : String}
    (h : ∀ d ∈ l, d.ref ≠ r1) :
    l.map (fun dep => if dep.ref = r1 then { dep with ref := r2 } else dep) = l := by
  induction l with
  | nil => rfl
  | cons a as ih =>
    rw [List.map_cons, if_neg (h a (List.mem_cons_self a as)),
      ih (fun d hd => h d (List.mem_cons_of_mem a hd))]

/-- Emptiness is preserved by mapping. -/
theorem isEmpty_map {α β : Type} (f : α → β) (l : List α) :
    (l.map f).isEmpty = l.isEmpty := by
  cases l <;> rfl

/-- Mapping under the empty-to-`None` wrapping. -/
theorem map_if_isEmpty {α : Type} (l : List α) (f : List α → List α) :
    Option.map f (if l.isEmpty then none else some l) =
      if l.isEmpty then none else some (f l) := by
  by_cases he : l.isEmpty
  · rw [if_pos he, if_pos he]
    rfl
  · rw [if_neg he, if_neg he]
    rfl

/-- The edge-list substitution performed by `restamp` turns the edge list
stamped at one instant into the edge list stamped at another. -/
theorem replace_edges (t : Target) (nodes : List Package) (n1 n2 : Nat) :
    (((if (mainDepsList t.lock nodes).isEmpty then ([] : List Dependency)
       else [{ ref := "urn:uv-bom:" ++ toString n1,
               dependsOn := mainDepsList t.lock nodes }]) ++
      perPackageEdges nodes).map (fun dep =>
        if dep.ref = "urn:uv-bom:" ++ toString n1
        then { dep with ref := "urn:uv-bom:" ++ toString n2 } else dep)) =
    (if (mainDepsList t.lock nodes).isEmpty then ([] : List Dependency)
     else [{ ref := "urn:uv-bom:" ++ toString n2,
             dependsOn := mainDepsList t.lock nodes }]) ++
    perPackageEdges nodes := by
  rw [List.map_append]
  have hper : (perPackageEdges nodes).map (fun dep =>
      if dep.ref = "urn:uv-bom:" ++ toString n1
      then { dep with ref := "urn:uv-bom:" ++ toString n2 } else dep) =
      perPackageEdges nodes := by
    apply map_keep_of_ne
    intro d hd
    rcases mem_perPackageEdges hd with ⟨n, -, -, rfl⟩
    exact pkgRef_ne_urn n _
  rw [hper]
  by_cases he : (mainDepsList t.lock nodes).isEmpty
  · rw [if_pos he, if_pos he]
    rfl
  · rw [if_neg he, if_neg he]
    rw [List.map_singleton, if_pos rfl]

/-- Claim C8, amended claim.  The assembler reads the wall clock twice per
invocation (the source's two `now()` calls, modelled as the independent
parameters `now` and `ts`): the first reading is used consistently for
both the document-level serial number and the synthetic root-component
reference string, while the second supplies the metadata timestamp; two
assemblies of the same lock input at different times differ only in the
serial number, the metadata timestamp, and the occurrences of the root
reference string (the original claim's "reads the wall clock once ... and
differ only in those two fields" fails on the metadata timestamp, see the
counterexample). -/
theorem c8_amended (t : Target) (nodes : List Package) (includeHashes : Bool)
    (n1 : Nat) (s1 : String) (n2 : Nat) (s2 : String) :
    (generateCycloneDxBom t nodes includeHashes n1 s1).map (restamp n2 s2) =
      generateCycloneDxBom t nodes includeHashes n2 s2 ∧
    (generateCycloneDxBom t nodes includeHashes n1 s1).map
        (fun d => (d.serialNumber, d.metadata.component.map (fun c => c.bomRef))) =
      (generateCycloneDxBom t nodes includeHashes n1 s1).map
        (fun _ => ("urn:uv-bom-serial:" ++ toString n1,
                   some ("urn:uv-bom:" ++ toString n1))) := by
  simp only [generateCycloneDxBom, createMainComponent, exceptBind_ok]
  cases ha : createWorkspaceComponents t
  case error =>
    simp only [exceptBind_error]
    exact ⟨rfl, rfl⟩
  case ok ws =>
  simp only [exceptBind_ok]
  cases hb : depComponentsAux t.lock.members includeHashes nodes []
  case error =>
    simp only [exceptBind_error]
    exact ⟨rfl, rfl⟩
  case ok dcs =>
  simp only [exceptBind_ok, createDependencyRelationships]
  refine ⟨?_, rfl⟩
  show Except.ok _ = Except.ok _
  refine congrArg Except.ok ?_
  simp only [restamp, Option.map_some', Option.getD_some]
  rw [map_if_isEmpty, replace_edges]
  have hEmpty : ((if (mainDepsList t.lock nodes).isEmpty then ([] : List Dependency)
        else [{ ref := "urn:uv-bom:" ++ toString n1,
                dependsOn := mainDepsList t.lock nodes }]) ++
      perPackageEdges nodes).isEmpty =
      ((if (mainDepsList t.lock nodes).isEmpty then ([] : List Dependency)
        else [{ ref := "urn:uv-bom:" ++ toString n2,
                dependsOn := mainDepsList t.lock nodes }]) ++
      perPackageEdges nodes).isEmpty := by
    by_cases he : (mainDepsList t.lock nodes).isEmpty
    · rw [if_pos he, if_pos he]
    · rw [if_neg he, if_neg he]
      rfl
  rw [hEmpty]

/-! ## Claim C10 — hashes only on external components -/

/-- The hashes an external component carries, as a function of the flag
and the package. -/
theorem createComponentFromPackage_hashes {p : Package} {includeHashes : Bool}
    {c : Component} (h : createComponentFromPackage p includeHashes = .ok c) :
    c.hashes = (if includeHashes then
      (if p.hashes.isEmpty then none
       else some (p.hashes.map (fun hh => { alg := hh.algorithm, content := hh.digest })))
      else none) := by
  cases hp : createPurlFromPackage p
  · rw [createComponentFromPackage, hp, exceptBind_error] at h
    cases h
  · simp only [createComponentFromPackage, hp, exceptBind_ok, Except.ok.injEq] at h
    rw [← h]

/-- Every component the member loop produces is hashless. -/
theorem memberComponentsAux_hashes {lock : Lock} {ms : List String}
    {cs : List Component} (h : memberComponentsAux lock ms = .ok cs) :
    ∀ c ∈ cs, c.hashes = none := by
  induction ms generalizing cs with
  | nil =>
    have := Except.ok.inj h
    subst this
    intro c hc
    cases hc
  | cons m ms ih =>
    simp only [memberComponentsAux] at h
    cases hf : findByName lock m <;> rw [hf] at h
    · rw [optElim_none] at h
      exact ih h
    · rename_i p
      simp only [optElim_some] at h
      cases hc : createWorkspaceMemberComponent p <;> rw [hc] at h
      · rw [exceptBind_error] at h
        cases h
      · rename_i c
        rw [exceptBind_ok] at h
        cases ha : memberComponentsAux lock ms <;> rw [ha] at h
        · rw [exceptBind_error] at h
          cases h
        · rename_i rest
          rw [exceptBind_ok] at h
          have := Except.ok.inj h
          subst this
          intro c' hc'
          rcases List.mem_cons.mp hc' with rfl | hc''
          · exact (createWorkspaceMemberComponent_fields hc).2
          · exact ih ha c' hc''

/-- Every workspace/root component is hashless. -/
theorem createWorkspaceComponents_hashes {t : Target} {ws : List Component}
    (h : createWorkspaceComponents t = .ok ws) :
    ∀ c ∈ ws, c.hashes = none := by
  simp only [createWorkspaceComponents] at h
  cases ha : memberComponentsAux t.lock t.lock.members <;> rw [ha] at h
  · rw [exceptBind_error] at h
    cases h
  · rename_i comps
    rw [exceptBind_ok] at h
    by_cases he : t.lock.members.isEmpty
    · rw [if_pos he] at h
      cases hr : t.lock.root <;> rw [hr] at h
      · rw [optElim_none] at h
        have := Except.ok.inj h
        subst this
        exact memberComponentsAux_hashes ha
      · rename_i rootPackage
        simp only [optElim_some] at h
        cases hc : createSingleProjectComponent rootPackage <;> rw [hc] at h
        · rw [exceptBind_error] at h
          cases h
        · rename_i c
          rw [exceptBind_ok] at h
          have := Except.ok.inj h
          subst this
          intro c' hc'
          rcases List.mem_append.mp hc' with hin | hin
          · exact memberComponentsAux_hashes ha c' hin
          · rcases List.mem_singleton.mp hin with rfl
            exact (createSingleProjectComponent_fields hc).2
    · rw [if_neg he] at h
      have := Except.ok.inj h
      subst this
      exact memberComponentsAux_hashes ha

/-- Every component the dependency-component loop produces comes from a
node of the filtered list via `create_component_from_package`. -/
theorem depComponentsAux_origin {members : List String} {includeHashes : Bool}
    {ns : List Package} :
    ∀ {seen : List String} {cs : List Component},
      depComponentsAux members includeHashes ns seen = .ok cs →
      ∀ c ∈ cs, ∃ p ∈ ns, createComponentFromPackage p includeHashes = .ok c := by
  induction ns with
  | nil =>
    intro seen cs h c hc
    have := Except.ok.inj h
    subst this
    cases hc
  | cons m ms ih =>
    intro seen cs h c hc
    simp only [depComponentsAux] at h
    by_cases hskipm : skipNode members m
    · rw [if_pos hskipm] at h
      rcases ih h c hc with ⟨p, hp, hcp⟩
      exact ⟨p, List.mem_cons_of_mem m hp, hcp⟩
    · rw [if_neg hskipm] at h
      cases hcm : createComponentFromPackage m includeHashes <;> rw [hcm] at h
      · rw [exceptBind_error] at h
        cases h
      · rename_i c0
        rw [exceptBind_ok] at h
        by_cases hseen : c0.bomRef ∈ seen
        · rw [if_pos (decide_eq_true hseen)] at h
          rcases ih h c hc with ⟨p, hp, hcp⟩
          exact ⟨p, List.mem_cons_of_mem m hp, hcp⟩
        · rw [if_neg (by rw [decide_eq_false hseen]; exact Bool.false_ne_true)] at h
          cases ha : depComponentsAux members includeHashes ms (c0.bomRef :: seen) <;>
            rw [ha] at h
          · rw [exceptBind_error] at h
            cases h
          · rename_i rest
            rw [exceptBind_ok] at h
            have := Except.ok.inj h
            subst this
            rcases List.mem_cons.mp hc with rfl | hc'
            · exact ⟨m, List.mem_cons_self m ms, hcm⟩
            · rcases ih ha c hc' with ⟨p, hp, hcp⟩
              exact ⟨p, List.mem_cons_of_mem m hp, hcp⟩

/-- Claim C10.  Workspace-member components and the single-project root
component always carry `hashes = None` — the builders take no hash flag at
all — and in any assembled document a component carrying hash entries can
only be an external dependency component: it comes from a package of the
filtered list with at least one recorded hash, built by the external
component builder with hash inclusion enabled. -/
theorem c10_hashes :
    (∀ (p : Package) (c : Component), createSingleProjectComponent p = .ok c →
        c.hashes = none) ∧
    (∀ (p : Package) (c : Component), createWorkspaceMemberComponent p = .ok c →
        c.hashes = none) ∧
    (∀ (t : Target) (nodes : List Package) (includeHashes : Bool) (now : Nat)
        (ts : String) (doc : CycloneDx) (c : Component),
        generateCycloneDxBom t nodes includeHashes now ts = .ok doc →
        c ∈ doc.components.getD [] → c.hashes ≠ none →
        includeHashes = true ∧ ∃ p ∈ nodes, p.hashes ≠ [] ∧
          createComponentFromPackage p true = .ok c) := by
  refine ⟨fun p c h => (createSingleProjectComponent_fields h).2,
          fun p c h => (createWorkspaceMemberComponent_fields h).2, ?_⟩
  intro t nodes includeHashes now ts doc c hgen hc hne
  simp only [generateCycloneDxBom, createMainComponent, exceptBind_ok] at hgen
  cases ha : createWorkspaceComponents t <;> rw [ha] at hgen
  case error =>
    rw [exceptBind_error] at hgen
    cases hgen
  case ok ws =>
  rw [exceptBind_ok] at hgen
  cases hb : depComponentsAux t.lock.members includeHashes nodes [] <;> rw [hb] at hgen
  case error =>
    rw [exceptBind_error] at hgen
    cases hgen
  case ok dcs =>
  simp only [exceptBind_ok, createDependencyRelationships] at hgen
  have hdoc := Except.ok.inj hgen
  have hcomps : doc.components.getD [] = ws ++ dcs := by
    have hfield : doc.components =
        (if (ws ++ dcs).isEmpty then none else some (ws ++ dcs)) := by
      rw [← hdoc]
    rw [hfield, getD_if_isEmpty]
  rw [hcomps] at hc
  rcases List.mem_append.mp hc with hin | hin
  · exact absurd (createWorkspaceComponents_hashes ha c hin) hne
  · rcases depComponentsAux_origin hb c hin with ⟨p, hp, hcp⟩
    have hsh := createComponentFromPackage_hashes hcp
    cases hflag : includeHashes
    · rw [hflag, if_neg Bool.false_ne_true] at hsh
      exact absurd hsh hne
    · refine ⟨rfl, p, hp, ?_, ?_⟩
      · intro hnil
        rw [hflag, if_pos rfl, if_pos (by rw [hnil]; rfl)] at hsh
        exact hne hsh
      · rw [hflag] at hcp
        exact hcp

/-- Claim C10, witness.  The document-level part of the hash theorem applied
to the single-project lock with hash inclusion: the hashed component of
`docA0` is the external build of `pkgA`. -/
theorem c10_witness : createComponentFromPackage pkgA true = .ok cExtAH := by
  have h := (c10_hashes).2.2 targetSingleA [pkgA] true 0 "t0" docA0 cExtAH rfl
    (by decide) (by decide)
  obtain ⟨-, p, hp, -, hcp⟩ := h
  have hpa : p = pkgA := List.mem_singleton.mp hp
  subst hpa
  exact hcp

/-! ## Claim C9 — rendering round-trip -/

/-- Hash entries round-trip. -/
theorem fromJson_toJson_hash (h : Hash) : fromJsonHash (toJsonHash h) = some h := by
  obtain ⟨alg, content⟩ := h
  rfl

/-- Properties round-trip. -/
theorem fromJson_toJson_property (p : Property) :
    fromJsonProperty (toJsonProperty p) = some p := by
  obtain ⟨name, value⟩ := p
  rfl

/-- Tools round-trip. -/
theorem fromJson_toJson_tool (t : Tool) : fromJsonTool (toJsonTool t) = some t := by
  obtain ⟨vendor, name, version⟩ := t
  cases vendor <;> cases version <;> rfl

/-- Parsing a serialized list recovers the list. -/
theorem parseList_map {α : Type} (f : Json → Option α) (g : α → Json)
    (hfg : ∀ x, f (g x) = some x) (l : List α) :
    parseList f (l.map g) = some l := by
  induction l with
  | nil => rfl
  | cons a as ih =>
    rw [List.map_cons, parseList, hfg a, ih]
    rfl

/-- Serialized hash arrays parse back. -/
theorem parseArr_hashes (hs : List Hash) :
    parseArr fromJsonHash (.arr (hs.map toJsonHash)) = some hs :=
  parseList_map _ _ fromJson_toJson_hash hs

/-- Serialized property arrays parse back. -/
theorem parseArr_properties (ps : List Property) :
    parseArr fromJsonProperty (.arr (ps.map toJsonProperty)) = some ps :=
  parseList_map _ _ fromJson_toJson_property ps

/-- Serialized tool arrays parse back. -/
theorem parseArr_tools (ts : List Tool) :
    parseArr fromJsonTool (.arr (ts.map toJsonTool)) = some ts :=
  parseList_map _ _ fromJson_toJson_tool ts

/-- Components round-trip. -/
theorem fromJson_toJson_component (c : Component) :
    fromJsonComponent (toJsonComponent c) = some c := by
  obtain ⟨bomRef, type, name, version, description, hashes, purl, properties⟩ := c
  cases version <;> cases description <;> cases hashes <;> cases purl <;>
    cases properties <;>
    simp [toJsonComponent, fromJsonComponent, optField, Json.getField, List.lookup,
      parseOptField, Json.asStr, parseArr_hashes, parseArr_properties]

/-- Metadata round-trips. -/
theorem fromJson_toJson_metadata (m : Metadata) :
    fromJsonMetadata (toJsonMetadata m) = some m := by
  obtain ⟨timestamp, tools, component⟩ := m
  cases timestamp <;> cases tools <;> cases component <;>
    simp [toJsonMetadata, fromJsonMetadata, optField, Json.getField, List.lookup,
      parseOptField, Json.asStr, parseArr_tools, fromJson_toJson_component]

/-- Dependency edges round-trip. -/
theorem fromJson_toJson_dependency (d : Dependency) :
    fromJsonDependency (toJsonDependency d) = some d := by
  obtain ⟨ref, dependsOn⟩ := d
  simp [toJsonDependency, fromJsonDependency, Json.getField, List.lookup, Json.asStr,
    parseArr, parseList_map (fun j => Json.asStr j) Json.str (fun x => rfl)]

/-- Serialized component arrays parse back. -/
theorem parseArr_components (cs : List Component) :
    parseArr fromJsonComponent (.arr (cs.map toJsonComponent)) = some cs :=
  parseList_map _ _ fromJson_toJson_component cs

/-- Serialized dependency arrays parse back. -/
theorem parseArr_dependencies (ds : List Dependency) :
    parseArr fromJsonDependency (.arr (ds.map toJsonDependency)) = some ds :=
  parseList_map _ _ fromJson_toJson_dependency ds

/-- Claim C9.  Rendering a document to the JSON tree and parsing it back
yields the document unchanged — in particular a document structurally
equal to the original on all fields excluding `serialNumber` and
`metadata.timestamp` — with absent optional fields omitted from the JSON
rather than emitted as null (a key is present exactly when the field is),
and `components`/`dependencies` never assembled as present-but-empty, so
they are omitted entirely when empty. -/
theorem c9_roundtrip :
    (∀ d : CycloneDx, fromJsonCycloneDx (toJsonCycloneDx d) = some d) ∧
    (∀ d : CycloneDx,
        jsonHasField (toJsonCycloneDx d) "components" = d.components.isSome) ∧
    (∀ d : CycloneDx,
        jsonHasField (toJsonCycloneDx d) "dependencies" = d.dependencies.isSome) ∧
    (∀ m : Metadata, jsonHasField (toJsonMetadata m) "timestamp" = m.timestamp.isSome) ∧
    (∀ (t : Target) (nodes : List Package) (includeHashes : Bool) (now : Nat)
        (ts : String),
      ((generateCycloneDxBom t nodes includeHashes now ts).toOption.bind
        (fun doc => doc.components)).elim true (fun cs => !cs.isEmpty) = true ∧
      ((generateCycloneDxBom t nodes includeHashes now ts).toOption.bind
        (fun doc => doc.dependencies)).elim true (fun ds => !ds.isEmpty) = true) := by
  refine ⟨?_, ?_, ?_, ?_, ?_⟩
  · intro d
    obtain ⟨bomFormat, specVersion, serialNumber, version, metadata, components,
      dependencies⟩ := d
    cases components <;> cases dependencies <;>
      simp [toJsonCycloneDx, fromJsonCycloneDx, optField, Json.getField, List.lookup,
        parseOptField, Json.asStr, Json.asNat, fromJson_toJson_metadata,
        parseArr_components, parseArr_dependencies]
  · intro d
    obtain ⟨bomFormat, specVersion, serialNumber, version, metadata, components,
      dependencies⟩ := d
    cases components <;> cases dependencies <;> rfl
  · intro d
    obtain ⟨bomFormat, specVersion, serialNumber, version, metadata, components,
      dependencies⟩ := d
    cases components <;> cases dependencies <;> rfl
  · intro m
    obtain ⟨timestamp, tools, component⟩ := m
    cases timestamp <;> cases tools <;> cases component <;> rfl
  · intro t nodes includeHashes now ts
    simp only [generateCycloneDxBom, createMainComponent, exceptBind_ok]
    cases ha : createWorkspaceComponents t
    case error =>
      simp only [exceptBind_error]
      exact ⟨rfl, rfl⟩
    case ok ws =>
    simp only [exceptBind_ok]
    cases hb : depComponentsAux t.lock.members includeHashes nodes []
    case error =>
      simp only [exceptBind_error]
      exact ⟨rfl, rfl⟩
    case ok dcs =>
    simp only [exceptBind_ok, createDependencyRelationships]
    constructor
    · show ((if (ws ++ dcs).isEmpty then none
          else some (ws ++ dcs) : Option (List Component)).elim true
            (fun cs => !cs.isEmpty)) = true
      by_cases he : (ws ++ dcs).isEmpty
      · rw [if_pos he]
        rfl
      · rw [if_neg he]
        show (!(ws ++ dcs).isEmpty) = true
        rw [Bool.eq_false_iff.mpr he]
        rfl
    · show ((if ((if (mainDepsList t.lock nodes).isEmpty
              then ([] : List Dependency)
              else [{ ref := "urn:uv-bom:" ++ toString now,
                      dependsOn := mainDepsList t.lock nodes }]) ++
             perPackageEdges nodes).isEmpty then none
          else some ((if (mainDepsList t.lock nodes).isEmpty
              then ([] : List Dependency)
              else [{ ref := "urn:uv-bom:" ++ toString now,
                      dependsOn := mainDepsList t.lock nodes }]) ++
             perPackageEdges nodes) : Option (List Dependency)).elim true
            (fun ds => !ds.isEmpty)) = true
      by_cases he : ((if (mainDepsList t.lock nodes).isEmpty
          then ([] : List Dependency)
          else [{ ref := "urn:uv-bom:" ++ toString now,
                  dependsOn := mainDepsList t.lock nodes }]) ++
         perPackageEdges nodes).isEmpty
      · rw [if_pos he]
        rfl
      · rw [if_neg he]
        show (!((if (mainDepsList t.lock nodes).isEmpty
            then ([] : List Dependency)
            else [{ ref := "urn:uv-bom:" ++ toString now,
                    dependsOn := mainDepsList t.lock nodes }]) ++
           perPackageEdges nodes).isEmpty) = true
        rw [Bool.eq_false_iff.mpr he]
        rfl

end Sbom
